import Mathlib

/-!
# safeurls.xyz: scan orchestration in `src/App.jsx`

A shallow embedding of the two scan handlers of the `App` component,
`handleUrlScan` and `handleBatchScan`, together with `showNotification`.

* JavaScript objects are association lists from property names to values.
* The React state cells (`scanResults`, `isLoading`) are fields of `World`;
  a functional updater `setX(prev => f prev)` is `x := f x`.
* `analyzeUrl`, the wall clock and `Math.random` are supplied by `Env`;
  the browser's `Notification` API is supplied by `Browser`.
* `addToHistory`, `updateAnalytics`, `console.error` and `showNotification`
  are observed through call logs kept in `World`.
-/

namespace SafeUrls

/-! ## Values and objects -/

/-- JavaScript values occurring in scan results.  `isoTime ms` stands for the
string `new Date(ms).toISOString()`. -/
inductive JSVal where
  | undefined
  | null
  | bool (b : Bool)
  | num (n : Int)
  | str (s : String)
  | isoTime (ms : Nat)
  | arr (items : List JSVal)
  | obj (fields : List (String × JSVal))

/-- A plain object: its own enumerable properties, in order. -/
abbrev JSObj := List (String × JSVal)

/-- Property read `o[k]`; `none` when the property is absent. -/
def getField : JSObj → String → Option JSVal
  | [], _ => none
  | (k', v) :: rest, k => if k' = k then some v else getField rest k

/-- Property write inside an object literal: overwrite in place, else append. -/
def setField : JSObj → String → JSVal → JSObj
  | [], k, v => [(k, v)]
  | (k', v') :: rest, k, v =>
    if k' = k then (k', v) :: rest else (k', v') :: setField rest k v

/-- JavaScript truthiness (`ToBoolean`). -/
def truthy : JSVal → Bool
  | .undefined => false
  | .null => false
  | .bool b => b
  | .num n => decide (n ≠ 0)
  | .str s => decide (s ≠ "")
  | .isoTime _ => true
  | .arr _ => true
  | .obj _ => true

/-- Truthiness of a property read; an absent property reads `undefined`. -/
def truthyField (o : JSObj) (k : String) : Bool :=
  match getField o k with
  | some v => truthy v
  | none => false

/-! ## `String.prototype.trim` -/

/-- White space and line terminators removed by `String.prototype.trim`. -/
def isJSWhitespace (c : Char) : Bool :=
  let n := c.toNat
  n == 0x09 || n == 0x0A || n == 0x0B || n == 0x0C || n == 0x0D || n == 0x20 ||
  n == 0xA0 || n == 0x1680 || (0x2000 ≤ n && n ≤ 0x200A) || n == 0x2028 ||
  n == 0x2029 || n == 0x202F || n == 0x205F || n == 0x3000 || n == 0xFEFF

/-- `s.trim()`. -/
def jsTrim (s : String) : String :=
  ⟨((s.data.dropWhile isJSWhitespace).reverse.dropWhile isJSWhitespace).reverse⟩

/-- An input that is empty or made of white space only. -/
def isBlank (s : String) : Bool := s.data.all isJSWhitespace

/-! ## Environment and state -/

/-- Origin and value of a raised exception. -/
inductive Thrown where
  | byAnalyzer (e : JSVal)
  | byNotification (e : JSVal)

/-- How a handler call ends. -/
inductive Completion where
  | normal
  | throw (t : Thrown)

/-- The `settings` state cell. -/
structure Settings where
  autoSave : Bool
  notifications : Bool
  theme : String
  scanDepth : String

/-- What the handlers call but do not define: `analyzeUrl` (returns a verdict
object or raises), the wall clock (`clock k` is the k-th reading in
milliseconds) and `Math.random` (`random k` is the k-th draw, as rendered by
string concatenation). -/
structure Env where
  analyzeUrl : String → Except JSVal JSObj
  clock : Nat → Nat
  random : Nat → String

/-- The browser's `Notification` API as seen by `showNotification`:
`newNotification m` is `none` when the constructor returns and `some e` when
it raises `e`. -/
structure Browser where
  notificationInWindow : Bool
  permission : String
  newNotification : String → Option JSVal

/-- State reachable from the handlers, with the call logs of the collaborators
(each log in call order). -/
structure World where
  scanResults : List JSObj
  isLoading : Bool
  ticks : Nat
  draws : Nat
  analyzerCalls : List String
  historyCalls : List JSObj
  analyticsCalls : List JSObj
  notifyCalls : List (String × String)
  shown : List String
  consoleErrors : List Thrown

/-! ## Result construction -/

/-- The literal `{ ...result, timestamp: t, id: i }`. -/
def withTimestamp (result : JSObj) (timestamp id : JSVal) : JSObj :=
  setField (setField result "timestamp" timestamp) "id" id

/-- The literal `{ error: 'Failed to analyze', url, timestamp: t, id: i }`. -/
def errorResult (url : String) (timestamp id : JSVal) : JSObj :=
  [("error", .str "Failed to analyze"), ("url", .str url),
   ("timestamp", timestamp), ("id", id)]

/-- `new Date().toISOString()` at clock reading `k`. -/
def timestampAt (env : Env) (k : Nat) : JSVal := .isoTime (env.clock k)

/-- `Date.now().toString()` at clock reading `k`. -/
def singleIdAt (env : Env) (k : Nat) : JSVal := .str (toString (env.clock k))

/-- `Date.now().toString() + Math.random()` at clock reading `k`, draw `d`. -/
def batchIdAt (env : Env) (k d : Nat) : JSVal :=
  .str (toString (env.clock k) ++ env.random d)

/-! ## `showNotification` -/

/-- `showNotification(message, type)`. -/
def showNotification (br : Browser) (w : World) (message type : String) :
    World × Completion :=
  let w := { w with notifyCalls := w.notifyCalls ++ [(message, type)] }
  if br.notificationInWindow && br.permission == "granted" then
    match br.newNotification message with
    | none => ({ w with shown := w.shown ++ [message] }, .normal)
    | some e => (w, .throw (.byNotification e))
  else (w, .normal)

/-! ## `handleUrlScan` -/

/-- The `try` block of `handleUrlScan`. -/
def scanTry (env : Env) (br : Browser) (settings : Settings) (w : World)
    (url : String) : World × Completion :=
  let w := { w with analyzerCalls := w.analyzerCalls ++ [url] }
  match env.analyzeUrl url with
  | .error e => (w, .throw (.byAnalyzer e))
  | .ok analysisResult =>
    let resultWithTimestamp :=
      withTimestamp analysisResult (timestampAt env w.ticks) (singleIdAt env (w.ticks + 1))
    let w := { w with ticks := w.ticks + 2 }
    let w := { w with scanResults := resultWithTimestamp :: w.scanResults.take 9 }
    let w := { w with historyCalls := w.historyCalls ++ [resultWithTimestamp] }
    let w := { w with analyticsCalls := w.analyticsCalls ++ [analysisResult] }
    if settings.notifications then
      showNotification br w
        (if truthyField analysisResult "safe" then "Safe URL detected"
         else "Potential threat detected")
        (if truthyField analysisResult "safe" then "success" else "warning")
    else (w, .normal)

/-- The `catch` block of `handleUrlScan`, entered with the raised value. -/
def scanCatch (br : Browser) (w : World) (error : Thrown) : World × Completion :=
  let w := { w with consoleErrors := w.consoleErrors ++ [error] }
  showNotification br w "Failed to analyze URL" "error"

/-- `handleUrlScan(url)`. -/
def handleUrlScan (env : Env) (br : Browser) (settings : Settings) (w : World)
    (url : String) : World × Completion :=
  if jsTrim url = "" then (w, .normal)
  else
    let w := { w with isLoading := true }
    let (w, c) :=
      match scanTry env br settings w url with
      | (w, .normal) => (w, Completion.normal)
      | (w, .throw error) => scanCatch br w error
    ({ w with isLoading := false }, c)

/-! ## `handleBatchScan` -/

/-- The `try` block of one loop iteration; the second component of the state
is the local array `results`. -/
def batchTry (env : Env) (st : World × List JSObj) (url : String) :
    (World × List JSObj) × Completion :=
  let (w, results) := st
  let w := { w with analyzerCalls := w.analyzerCalls ++ [url] }
  match env.analyzeUrl url with
  | .error e => ((w, results), .throw (.byAnalyzer e))
  | .ok result =>
    let resultWithTimestamp :=
      withTimestamp result (timestampAt env w.ticks) (batchIdAt env (w.ticks + 1) w.draws)
    let w := { w with ticks := w.ticks + 2, draws := w.draws + 1 }
    let results := results ++ [resultWithTimestamp]
    let w := { w with historyCalls := w.historyCalls ++ [resultWithTimestamp] }
    let w := { w with analyticsCalls := w.analyticsCalls ++ [result] }
    ((w, results), .normal)

/-- The `catch` block of one loop iteration. -/
def batchCatch (env : Env) (st : World × List JSObj) (url : String) :
    (World × List JSObj) × Completion :=
  let (w, results) := st
  let r := errorResult url (timestampAt env w.ticks) (batchIdAt env (w.ticks + 1) w.draws)
  (({ w with ticks := w.ticks + 2, draws := w.draws + 1 }, results ++ [r]), .normal)

/-- One iteration of `for (const url of urls) { try ... catch ... }`. -/
def batchStep (env : Env) (st : World × List JSObj) (url : String) :
    (World × List JSObj) × Completion :=
  match batchTry env st url with
  | (st, .normal) => (st, .normal)
  | (st, .throw _) => batchCatch env st url

/-- The `for ... of` loop: an iteration that raises ends the loop. -/
def batchLoop (env : Env) : World × List JSObj → List String →
    (World × List JSObj) × Completion
  | st, [] => (st, .normal)
  | st, url :: rest =>
    match batchStep env st url with
    | (st, .normal) => batchLoop env st rest
    | (st, .throw t) => (st, .throw t)

/-- `handleBatchScan(urls)`. -/
def handleBatchScan (env : Env) (w : World) (urls : List String) :
    World × Completion :=
  let w := { w with isLoading := true }
  match batchLoop env (w, []) urls with
  | ((w, results), .normal) =>
    let w := { w with scanResults := results ++ w.scanResults }
    ({ w with isLoading := false }, .normal)
  | ((w, _), .throw t) => (w, .throw t)

/-! ## Sequences of calls -/

/-- A call made by the presentation layer, with the browser and settings in
force when it is made. -/
inductive Call where
  | submit (br : Browser) (settings : Settings) (url : String)
  | submitBatch (urls : List String)

/-- State after one call. -/
def perform (env : Env) (w : World) : Call → World
  | .submit br settings url => (handleUrlScan env br settings w url).1
  | .submitBatch urls => (handleBatchScan env w urls).1

/-- State after a sequence of calls, made one after the other. -/
def performAll (env : Env) (w : World) (calls : List Call) : World :=
  calls.foldl (perform env) w

/-! ## Concrete inputs -/

/-- An analyzer that raises on `"bad"` and returns a clean verdict otherwise. -/
def demoAnalyze (url : String) : Except JSVal JSObj :=
  if url = "bad" then .error (.str "Invalid URL")
  else .ok [("url", .str url), ("safe", .bool true), ("riskScore", .num 0),
            ("flags", .arr [])]

/-- Environment with a clock ticking once per reading. -/
def demoEnv : Env := ⟨demoAnalyze, fun k => 1000 + k, fun _ => "0.5"⟩

/-- Browser with notifications granted and working. -/
def grantedBrowser : Browser := ⟨true, "granted", fun _ => none⟩

/-- Browser whose `Notification` constructor raises. -/
def throwingBrowser : Browser := ⟨true, "granted", fun _ => some (.str "TypeError")⟩

/-- Browser in which the notification permission was never granted. -/
def defaultBrowser : Browser := ⟨true, "default", fun _ => none⟩

/-- An analyzer that never raises and whose verdict for `url` is the object
`{ error: 'Failed to analyze', url }`. -/
def mimicAnalyze (url : String) : Except JSVal JSObj :=
  .ok [("error", .str "Failed to analyze"), ("url", .str url)]

/-- The environment of `demoEnv` with `mimicAnalyze` as analyzer. -/
def mimicEnv : Env := ⟨mimicAnalyze, fun k => 1000 + k, fun _ => "0.5"⟩

/-- The default settings of the component. -/
def demoSettings : Settings := ⟨true, true, "cyberpunk", "standard"⟩

/-- The state of a freshly mounted component. -/
def emptyWorld : World := ⟨[], false, 0, 0, [], [], [], [], [], []⟩

/-! ## Auxiliary definitions used in statements and proofs -/

/-- The state in which `handleUrlScan` reaches `if (settings.notifications)`. -/
def afterRecord (env : Env) (w : World) (url : String) (v : JSObj) : World :=
  { w with
    isLoading := true
    analyzerCalls := w.analyzerCalls ++ [url]
    ticks := w.ticks + 2
    scanResults :=
      withTimestamp v (timestampAt env w.ticks) (singleIdAt env (w.ticks + 1)) ::
        w.scanResults.take 9
    historyCalls := w.historyCalls ++
      [withTimestamp v (timestampAt env w.ticks) (singleIdAt env (w.ticks + 1))]
    analyticsCalls := w.analyticsCalls ++ [v] }

/-- The object pushed onto `results` by the loop iteration for `url` that
starts at clock reading `k` and draw `d`. -/
def batchItem (env : Env) (k d : Nat) (url : String) : JSObj :=
  match env.analyzeUrl url with
  | .ok v => withTimestamp v (timestampAt env k) (batchIdAt env (k + 1) d)
  | .error _ => errorResult url (timestampAt env k) (batchIdAt env (k + 1) d)

/-- The array `results` built by the loop over `urls` started at clock
reading `k` and draw `d`. -/
def batchResults (env : Env) : Nat → Nat → List String → List JSObj
  | _, _, [] => []
  | k, d, url :: rest => batchItem env k d url :: batchResults env (k + 2) (d + 1) rest

/-- The arguments of the `addToHistory` calls made by that loop. -/
def batchRecorded (env : Env) : Nat → Nat → List String → List JSObj
  | _, _, [] => []
  | k, d, url :: rest =>
    (match env.analyzeUrl url with
     | .ok _ => [batchItem env k d url]
     | .error _ => []) ++ batchRecorded env (k + 2) (d + 1) rest

/-- The arguments of the `updateAnalytics` calls made by that loop. -/
def batchCounted (env : Env) (urls : List String) : List JSObj :=
  urls.filterMap fun url => (env.analyzeUrl url).toOption

/-- Creation instant of a window entry, read back from its `timestamp`. -/
def createdAt (r : JSObj) : Nat :=
  match getField r "timestamp" with
  | some (.isoTime ms) => ms
  | _ => 0

/-- A window in which no entry is older than an entry that follows it. -/
def NewestFirst (l : List JSObj) : Prop :=
  l.Pairwise fun a b => createdAt b ≤ createdAt a

/-- A batch call of at most one URL, or a single scan. -/
def Call.atMostOne : Call → Prop
  | .submit _ _ _ => True
  | .submitBatch urls => urls.length ≤ 1

/-- Every window entry was created at or before the next clock reading. -/
def WindowInPast (env : Env) (w : World) : Prop :=
  ∀ r ∈ w.scanResults, createdAt r ≤ env.clock w.ticks

/-- What one call does to the window: `fresh` is what it puts in front and
`kept` what it keeps of the window it found. -/
def StepShape (env : Env) (w w' : World) (call : Call) (fresh kept : List JSObj) : Prop :=
  w'.scanResults = fresh ++ kept ∧
  kept <+: w.scanResults ∧
  (∀ a ∈ fresh, env.clock w.ticks ≤ createdAt a ∧ createdAt a ≤ env.clock w'.ticks) ∧
  (fresh.Pairwise fun a b => createdAt a ≤ createdAt b) ∧
  w.ticks ≤ w'.ticks ∧
  (match call with
   | .submit _ _ _ => fresh.length ≤ 1
   | .submitBatch urls => fresh.length = urls.length ∧ kept = w.scanResults)

/-! ## Objects -/

theorem getField_setField_same (o : JSObj) (k : String) (v : JSVal) :
    getField (setField o k v) k = some v := by
  induction o with
  | nil => simp [setField, getField]
  | cons p rest ih =>
    obtain ⟨k', v'⟩ := p
    by_cases h : k' = k
    · simp [setField, getField, h]
    · simp [setField, getField, h, ih]

theorem getField_setField_other (o : JSObj) (k k' : String) (v : JSVal) (h : k' ≠ k) :
    getField (setField o k v) k' = getField o k' := by
  induction o with
  | nil => simp [setField, getField, Ne.symm h]
  | cons p rest ih =>
    obtain ⟨k₀, v₀⟩ := p
    by_cases h₀ : k₀ = k
    · have h₁ : ¬ k = k' := fun e => h e.symm
      simp [setField, getField, h₀, h₁]
    · by_cases h₁ : k₀ = k'
      · subst h₁
        simp [setField, getField, h₀]
      · simp [setField, getField, h₀, h₁, ih]

theorem getField_withTimestamp_timestamp (v : JSObj) (t i : JSVal) :
    getField (withTimestamp v t i) "timestamp" = some t := by
  unfold withTimestamp
  rw [getField_setField_other _ _ _ _ (by decide), getField_setField_same]

theorem getField_withTimestamp_id (v : JSObj) (t i : JSVal) :
    getField (withTimestamp v t i) "id" = some i := by
  unfold withTimestamp
  rw [getField_setField_same]

theorem getField_withTimestamp_other (v : JSObj) (t i : JSVal) (k : String)
    (ht : k ≠ "timestamp") (hi : k ≠ "id") :
    getField (withTimestamp v t i) k = getField v k := by
  unfold withTimestamp
  rw [getField_setField_other _ _ _ _ hi, getField_setField_other _ _ _ _ ht]

/-! ## Trimming -/

theorem dropWhile_eq_nil_of_all {α : Type} (p : α → Bool) (l : List α)
    (h : l.all p = true) : l.dropWhile p = [] := by
  induction l with
  | nil => rfl
  | cons a l ih =>
    simp only [List.all_cons, Bool.and_eq_true] at h
    simp [List.dropWhile, h.1, ih h.2]

theorem all_of_dropWhile_eq_nil {α : Type} (p : α → Bool) (l : List α)
    (h : l.dropWhile p = []) : l.all p = true := by
  induction l with
  | nil => rfl
  | cons a l ih =>
    cases hp : p a with
    | true =>
      simp only [List.dropWhile, hp] at h
      simp [hp, ih h]
    | false => simp [List.dropWhile, hp] at h

theorem dropWhile_nil_or_head {α : Type} (p : α → Bool) (l : List α) :
    l.dropWhile p = [] ∨ ∃ a rest, l.dropWhile p = a :: rest ∧ p a = false := by
  induction l with
  | nil => exact Or.inl rfl
  | cons a l ih =>
    cases hp : p a with
    | true => simpa [List.dropWhile, hp] using ih
    | false => exact Or.inr ⟨a, l, by simp [List.dropWhile, hp], hp⟩

theorem jsTrim_eq_empty_iff (s : String) : jsTrim s = "" ↔ isBlank s = true := by
  have hdata : jsTrim s = "" ↔
      (s.data.dropWhile isJSWhitespace).reverse.dropWhile isJSWhitespace = [] := by
    rw [String.ext_iff]
    show ((s.data.dropWhile isJSWhitespace).reverse.dropWhile isJSWhitespace).reverse = [] ↔ _
    exact List.reverse_eq_nil_iff
  rw [hdata]
  unfold isBlank
  constructor
  · intro h
    have hall := all_of_dropWhile_eq_nil _ _ h
    rcases dropWhile_nil_or_head isJSWhitespace s.data with h0 | ⟨a, rest, h1, ha⟩
    · exact all_of_dropWhile_eq_nil _ _ h0
    · rw [h1] at hall
      simp only [List.all_reverse, List.all_cons, Bool.and_eq_true] at hall
      rw [ha] at hall
      exact absurd hall.1 (by decide)
  · intro h
    rw [dropWhile_eq_nil_of_all _ _ h]
    rfl

theorem handleUrlScan_nonblank (env : Env) (br : Browser) (settings : Settings)
    (w : World) (url : String) (h : isBlank url = false) :
    handleUrlScan env br settings w url =
      (match (match scanTry env br settings { w with isLoading := true } url with
              | (w, .normal) => (w, Completion.normal)
              | (w, .throw error) => scanCatch br w error) with
       | (w, c) => ({ w with isLoading := false }, c)) := by
  have hne : ¬ jsTrim url = "" := by
    rw [jsTrim_eq_empty_iff, h]
    decide
  unfold handleUrlScan
  rw [if_neg hne]

/-! ## Frame of `showNotification` -/

theorem showNotification_frame (br : Browser) (w : World) (message type : String) :
    (showNotification br w message type).1.scanResults = w.scanResults ∧
    (showNotification br w message type).1.historyCalls = w.historyCalls ∧
    (showNotification br w message type).1.analyticsCalls = w.analyticsCalls ∧
    (showNotification br w message type).1.analyzerCalls = w.analyzerCalls ∧
    (showNotification br w message type).1.consoleErrors = w.consoleErrors ∧
    (showNotification br w message type).1.ticks = w.ticks ∧
    (showNotification br w message type).1.notifyCalls = w.notifyCalls ++ [(message, type)] := by
  unfold showNotification
  cases br.notificationInWindow && br.permission == "granted" with
  | false => simp
  | true =>
    cases br.newNotification message with
    | none => simp
    | some e => simp

theorem showNotification_completion (br : Browser) (w : World) (message type : String)
    (e : JSVal) : (showNotification br w message type).2 ≠ .throw (.byAnalyzer e) := by
  unfold showNotification
  cases br.notificationInWindow && br.permission == "granted" with
  | false => simp
  | true =>
    cases br.newNotification message with
    | none => simp
    | some e => simp

/-! ## Closed forms of `handleUrlScan` -/

theorem handleUrlScan_of_error (env : Env) (br : Browser) (settings : Settings)
    (w : World) (url : String) (e : JSVal) (h : isBlank url = false)
    (he : env.analyzeUrl url = .error e) :
    handleUrlScan env br settings w url =
      ({ (showNotification br
            { w with isLoading := true, analyzerCalls := w.analyzerCalls ++ [url],
                     consoleErrors := w.consoleErrors ++ [.byAnalyzer e] }
            "Failed to analyze URL" "error").1 with isLoading := false },
       (showNotification br
            { w with isLoading := true, analyzerCalls := w.analyzerCalls ++ [url],
                     consoleErrors := w.consoleErrors ++ [.byAnalyzer e] }
            "Failed to analyze URL" "error").2) := by
  rw [handleUrlScan_nonblank env br settings w url h]
  simp [scanTry, he, scanCatch]

theorem scanTry_of_ok (env : Env) (br : Browser) (settings : Settings)
    (w : World) (url : String) (v : JSObj) (hv : env.analyzeUrl url = .ok v) :
    scanTry env br settings { w with isLoading := true } url =
      if settings.notifications then
        showNotification br (afterRecord env w url v)
          (if truthyField v "safe" then "Safe URL detected" else "Potential threat detected")
          (if truthyField v "safe" then "success" else "warning")
      else (afterRecord env w url v, .normal) := by
  simp [scanTry, hv, afterRecord]

theorem handleUrlScan_ok_frame (env : Env) (br : Browser) (settings : Settings)
    (w : World) (url : String) (v : JSObj) (h : isBlank url = false)
    (hv : env.analyzeUrl url = .ok v) :
    (handleUrlScan env br settings w url).1.scanResults = (afterRecord env w url v).scanResults ∧
    (handleUrlScan env br settings w url).1.historyCalls = (afterRecord env w url v).historyCalls ∧
    (handleUrlScan env br settings w url).1.analyticsCalls =
      (afterRecord env w url v).analyticsCalls ∧
    (handleUrlScan env br settings w url).1.ticks = w.ticks + 2 := by
  rw [handleUrlScan_nonblank env br settings w url h, scanTry_of_ok env br settings w url v hv]
  cases settings.notifications with
  | false => simp [afterRecord]
  | true =>
    simp only [if_true]
    generalize hm : (if truthyField v "safe" then "Safe URL detected"
      else "Potential threat detected") = m
    generalize ht : (if truthyField v "safe" then "success" else "warning") = t
    have hf := showNotification_frame br (afterRecord env w url v) m t
    rcases hs : showNotification br (afterRecord env w url v) m t with ⟨w₁, c₁⟩
    rw [hs] at hf
    cases c₁ with
    | normal => simpa [afterRecord] using ⟨hf.1, hf.2.1, hf.2.2.1, hf.2.2.2.2.2.1⟩
    | throw t₁ =>
      have hg := showNotification_frame br
        { w₁ with consoleErrors := w₁.consoleErrors ++ [t₁] } "Failed to analyze URL" "error"
      simp only [scanCatch]
      simp only at hf hg
      refine ⟨?_, ?_, ?_, ?_⟩
      · exact hg.1.trans hf.1
      · exact hg.2.1.trans hf.2.1
      · exact hg.2.2.1.trans hf.2.2.1
      · exact hg.2.2.2.2.2.1.trans hf.2.2.2.2.2.1

/-! ## Closed form of `handleBatchScan` -/

theorem batchStep_eq (env : Env) (w : World) (rs : List JSObj) (url : String) :
    batchStep env (w, rs) url =
      (({ w with
          analyzerCalls := w.analyzerCalls ++ [url]
          ticks := w.ticks + 2
          draws := w.draws + 1
          historyCalls := w.historyCalls ++ batchRecorded env w.ticks w.draws [url]
          analyticsCalls := w.analyticsCalls ++ batchCounted env [url] },
        rs ++ [batchItem env w.ticks w.draws url]), .normal) := by
  cases h : env.analyzeUrl url with
  | error e =>
    simp [batchStep, batchTry, batchCatch, batchRecorded, batchCounted, batchItem, h,
      Except.toOption]
  | ok v =>
    simp [batchStep, batchTry, batchRecorded, batchCounted, batchItem, h, Except.toOption]

theorem batchCounted_cons (env : Env) (url : String) (rest : List String) :
    batchCounted env (url :: rest) = batchCounted env [url] ++ batchCounted env rest := by
  unfold batchCounted
  cases h : (env.analyzeUrl url).toOption <;> simp [List.filterMap_cons, h]

theorem batchRecorded_cons (env : Env) (k d : Nat) (url : String) (rest : List String) :
    batchRecorded env k d (url :: rest) =
      batchRecorded env k d [url] ++ batchRecorded env (k + 2) (d + 1) rest := by
  simp [batchRecorded]

theorem batchLoop_eq (env : Env) (urls : List String) (w : World) (rs : List JSObj) :
    batchLoop env (w, rs) urls =
      (({ w with
          analyzerCalls := w.analyzerCalls ++ urls
          ticks := w.ticks + 2 * urls.length
          draws := w.draws + urls.length
          historyCalls := w.historyCalls ++ batchRecorded env w.ticks w.draws urls
          analyticsCalls := w.analyticsCalls ++ batchCounted env urls },
        rs ++ batchResults env w.ticks w.draws urls), .normal) := by
  induction urls generalizing w rs with
  | nil => simp [batchLoop, batchRecorded, batchCounted, batchResults]
  | cons url rest ih =>
    rw [batchLoop, batchStep_eq]
    simp only [ih]
    rw [batchCounted_cons env url rest, batchRecorded_cons env w.ticks w.draws url rest]
    simp only [List.length_cons, batchResults, List.append_assoc, List.singleton_append,
      Prod.mk.injEq, and_true]
    congr 1 <;> omega

theorem handleBatchScan_eq (env : Env) (w : World) (urls : List String) :
    handleBatchScan env w urls =
      ({ w with
          isLoading := false
          analyzerCalls := w.analyzerCalls ++ urls
          ticks := w.ticks + 2 * urls.length
          draws := w.draws + urls.length
          historyCalls := w.historyCalls ++ batchRecorded env w.ticks w.draws urls
          analyticsCalls := w.analyticsCalls ++ batchCounted env urls
          scanResults := batchResults env w.ticks w.draws urls ++ w.scanResults },
        .normal) := by
  unfold handleBatchScan
  simp [batchLoop_eq]

theorem batchResults_length (env : Env) (urls : List String) (k d : Nat) :
    (batchResults env k d urls).length = urls.length := by
  induction urls generalizing k d with
  | nil => rfl
  | cons url rest ih => simp [batchResults, ih]

theorem batchResults_eq_mapIdx (env : Env) (urls : List String) (k d : Nat) :
    batchResults env k d urls =
      urls.mapIdx fun i url => batchItem env (k + 2 * i) (d + i) url := by
  induction urls generalizing k d with
  | nil => rfl
  | cons url rest ih =>
    rw [batchResults, List.mapIdx_cons, ih]
    simp only [Nat.mul_zero, Nat.add_zero, List.cons.injEq, true_and]
    congr 1
    funext i u
    congr 1 <;> omega

theorem batchRecorded_eq_filter (env : Env) (urls : List String) (k d : Nat) :
    batchRecorded env k d urls =
      (((batchResults env k d urls).zip urls).filter
        fun p => (env.analyzeUrl p.2).isOk).map Prod.fst := by
  induction urls generalizing k d with
  | nil => rfl
  | cons url rest ih =>
    rw [batchRecorded, batchResults, ih]
    cases h : env.analyzeUrl url <;> simp [List.filter_cons, h, Except.isOk, Except.toBool]

theorem handleBatchScan_getElem? (env : Env) (w : World) (urls : List String)
    (i : Nat) (url : String) (hi : urls[i]? = some url) :
    (handleBatchScan env w urls).1.scanResults[i]? =
      some (batchItem env (w.ticks + 2 * i) (w.draws + i) url) := by
  have hlt : i < urls.length := by
    rcases Nat.lt_or_ge i urls.length with h | h
    · exact h
    · rw [List.getElem?_eq_none h] at hi
      cases hi
  rw [handleBatchScan_eq]
  show (batchResults env w.ticks w.draws urls ++ w.scanResults)[i]? = _
  rw [List.getElem?_append_left (by rw [batchResults_length]; exact hlt),
    batchResults_eq_mapIdx, List.getElem?_mapIdx, hi]
  rfl

theorem handleUrlScan_of_blank (env : Env) (br : Browser) (settings : Settings)
    (w : World) (url : String) (h : isBlank url = true) :
    handleUrlScan env br settings w url = (w, .normal) := by
  unfold handleUrlScan
  rw [if_pos ((jsTrim_eq_empty_iff url).2 h)]

theorem handleUrlScan_error_frame (env : Env) (br : Browser) (settings : Settings)
    (w : World) (url : String) (e : JSVal) (h : isBlank url = false)
    (he : env.analyzeUrl url = .error e) :
    (handleUrlScan env br settings w url).1.scanResults = w.scanResults ∧
    (handleUrlScan env br settings w url).1.historyCalls = w.historyCalls ∧
    (handleUrlScan env br settings w url).1.analyticsCalls = w.analyticsCalls ∧
    (handleUrlScan env br settings w url).1.analyzerCalls = w.analyzerCalls ++ [url] ∧
    (handleUrlScan env br settings w url).1.consoleErrors =
      w.consoleErrors ++ [.byAnalyzer e] ∧
    (handleUrlScan env br settings w url).1.ticks = w.ticks ∧
    (handleUrlScan env br settings w url).1.notifyCalls =
      w.notifyCalls ++ [("Failed to analyze URL", "error")] := by
  rw [handleUrlScan_of_error env br settings w url e h he]
  exact showNotification_frame br _ "Failed to analyze URL" "error"

theorem handleUrlScan_completion (env : Env) (br : Browser) (settings : Settings)
    (w : World) (url : String) (e : JSVal) :
    (handleUrlScan env br settings w url).2 ≠ .throw (.byAnalyzer e) := by
  cases h : isBlank url with
  | true =>
    rw [handleUrlScan_of_blank env br settings w url h]
    simp
  | false =>
    rw [handleUrlScan_nonblank env br settings w url h]
    rcases scanTry env br settings { w with isLoading := true } url with ⟨w₁, c₁⟩
    cases c₁ with
    | normal => simp
    | throw t => exact showNotification_completion br _ _ _ e

/-! ## Creation order -/

theorem createdAt_withTimestamp (env : Env) (v : JSObj) (k : Nat) (i : JSVal) :
    createdAt (withTimestamp v (timestampAt env k) i) = env.clock k := by
  unfold createdAt
  rw [getField_withTimestamp_timestamp]
  rfl

theorem createdAt_batchItem (env : Env) (k d : Nat) (url : String) :
    createdAt (batchItem env k d url) = env.clock k := by
  unfold batchItem
  cases env.analyzeUrl url with
  | ok v => exact createdAt_withTimestamp env v k _
  | error e => simp [createdAt, errorResult, getField, timestampAt]

theorem batchResults_bounds (env : Env) (hclock : Monotone env.clock)
    (urls : List String) (k d : Nat) :
    ∀ r ∈ batchResults env k d urls,
      env.clock k ≤ createdAt r ∧ createdAt r ≤ env.clock (k + 2 * urls.length) := by
  induction urls generalizing k d with
  | nil => simp [batchResults]
  | cons url rest ih =>
    intro r hr
    simp only [batchResults, List.mem_cons] at hr
    rcases hr with rfl | hr
    · rw [createdAt_batchItem]
      exact ⟨le_refl _, hclock (Nat.le_add_right _ _)⟩
    · have h := ih (k + 2) (d + 1) r hr
      have e : k + 2 + 2 * rest.length = k + 2 * (url :: rest).length := by
        simp only [List.length_cons]
        omega
      rw [e] at h
      exact ⟨le_trans (hclock (Nat.le_add_right k 2)) h.1, h.2⟩

theorem batchResults_ascending (env : Env) (hclock : Monotone env.clock)
    (urls : List String) (k d : Nat) :
    (batchResults env k d urls).Pairwise fun a b => createdAt a ≤ createdAt b := by
  induction urls generalizing k d with
  | nil => simp [batchResults]
  | cons url rest ih =>
    rw [batchResults, List.pairwise_cons]
    refine ⟨?_, ih (k + 2) (d + 1)⟩
    intro b hb
    rw [createdAt_batchItem]
    exact le_trans (hclock (Nat.le_add_right k 2))
      (batchResults_bounds env hclock rest (k + 2) (d + 1) b hb).1

theorem perform_shape (env : Env) (hclock : Monotone env.clock) (w : World) (call : Call) :
    ∃ fresh kept, StepShape env w (perform env w call) call fresh kept := by
  cases call with
  | submitBatch urls =>
    refine ⟨batchResults env w.ticks w.draws urls, w.scanResults, ?_⟩
    simp only [perform, handleBatchScan_eq, StepShape]
    refine ⟨trivial, List.prefix_refl _, ?_, batchResults_ascending env hclock urls _ _,
      Nat.le_add_right _ _, batchResults_length env urls _ _, trivial⟩
    exact batchResults_bounds env hclock urls w.ticks w.draws
  | submit br settings url =>
    cases hb : isBlank url with
    | true =>
      refine ⟨[], w.scanResults, ?_⟩
      simp [perform, handleUrlScan_of_blank env br settings w url hb, StepShape]
    | false =>
      cases hv : env.analyzeUrl url with
      | error e =>
        have hf := handleUrlScan_error_frame env br settings w url e hb hv
        refine ⟨[], w.scanResults, ?_⟩
        simp [perform, StepShape, hf.1, hf.2.2.2.2.2.1]
      | ok v =>
        have hf := handleUrlScan_ok_frame env br settings w url v hb hv
        refine ⟨[withTimestamp v (timestampAt env w.ticks) (singleIdAt env (w.ticks + 1))],
          w.scanResults.take 9, ?_⟩
        simp only [perform, StepShape, hf.1, hf.2.2.2]
        refine ⟨rfl, ⟨_, List.take_append_drop 9 _⟩, ?_, List.pairwise_singleton _ _,
          Nat.le_add_right _ _, le_refl _⟩
        intro a ha
        rw [List.mem_singleton.1 ha, createdAt_withTimestamp]
        exact ⟨le_refl _, hclock (Nat.le_add_right _ _)⟩

theorem StepShape.windowInPast {env : Env} (hclock : Monotone env.clock) {w w' : World}
    {call : Call} {fresh kept : List JSObj} (h : StepShape env w w' call fresh kept)
    (hw : WindowInPast env w) : WindowInPast env w' := by
  intro r hr
  rw [h.1, List.mem_append] at hr
  rcases hr with hr | hr
  · exact (h.2.2.1 r hr).2
  · exact le_trans (hw r (h.2.1.subset hr)) (hclock h.2.2.2.2.1)

theorem StepShape.fresh_newer {env : Env} {w w' : World}
    {call : Call} {fresh kept : List JSObj} (h : StepShape env w w' call fresh kept)
    (hw : WindowInPast env w) :
    ∀ a ∈ fresh, ∀ b ∈ w.scanResults, createdAt b ≤ createdAt a :=
  fun a ha b hb => le_trans (hw b hb) (h.2.2.1 a ha).1

theorem performAll_snoc (env : Env) (w : World) (calls : List Call) (call : Call) :
    performAll env w (calls ++ [call]) = perform env (performAll env w calls) call := by
  simp [performAll, List.foldl_append]

theorem performAll_windowInPast (env : Env) (hclock : Monotone env.clock) (w₀ : World)
    (h₀ : w₀.scanResults = []) (calls : List Call) :
    WindowInPast env (performAll env w₀ calls) := by
  induction calls using List.reverseRecOn with
  | nil =>
    intro r hr
    simp [performAll, h₀] at hr
  | append_singleton calls call ih =>
    rw [performAll_snoc]
    obtain ⟨fresh, kept, h⟩ := perform_shape env hclock (performAll env w₀ calls) call
    exact h.windowInPast hclock ih

theorem performAll_newestFirst (env : Env) (hclock : Monotone env.clock) (w₀ : World)
    (h₀ : w₀.scanResults = []) (calls : List Call) (hone : ∀ c ∈ calls, c.atMostOne) :
    NewestFirst (performAll env w₀ calls).scanResults := by
  induction calls using List.reverseRecOn with
  | nil => simp [performAll, h₀, NewestFirst]
  | append_singleton calls call ih =>
    have ih' := ih fun c hc => hone c (List.mem_append_left _ hc)
    have hcall : call.atMostOne := hone call (by simp)
    have hpast := performAll_windowInPast env hclock w₀ h₀ calls
    rw [performAll_snoc]
    obtain ⟨fresh, kept, h⟩ := perform_shape env hclock (performAll env w₀ calls) call
    have hlen : fresh.length ≤ 1 := by
      have h6 := h.2.2.2.2.2
      cases call with
      | submit br settings url => exact h6
      | submitBatch urls =>
        rw [h6.1]
        exact hcall
    unfold NewestFirst at ih' ⊢
    rw [h.1, List.pairwise_append]
    refine ⟨?_, ih'.sublist h.2.1.sublist, ?_⟩
    · match fresh, hlen with
      | [], _ => exact List.Pairwise.nil
      | [a], _ => exact List.pairwise_singleton _ _
    · intro a ha b hb
      exact h.fresh_newer hpast a ha b (h.2.1.subset hb)

theorem batchRecorded_length (env : Env) (urls : List String) (k d : Nat) :
    (batchRecorded env k d urls).length =
      (urls.filter fun url => (env.analyzeUrl url).isOk).length := by
  induction urls generalizing k d with
  | nil => rfl
  | cons url rest ih =>
    rw [batchRecorded, List.length_append, ih]
    cases h : env.analyzeUrl url <;> simp [List.filter_cons, h, Except.isOk, Except.toBool]
    omega

theorem batchCounted_length (env : Env) (urls : List String) :
    (batchCounted env urls).length =
      (urls.filter fun url => (env.analyzeUrl url).isOk).length := by
  induction urls with
  | nil => rfl
  | cons url rest ih =>
    rw [batchCounted_cons, List.length_append, ih]
    cases h : env.analyzeUrl url <;>
      simp [batchCounted, List.filter_cons, h, Except.isOk, Except.toBool, Except.toOption]
    omega

theorem getField_errorResult_other (url : String) (t i : JSVal) (k : String)
    (he : k ≠ "error") (hu : k ≠ "url") (ht : k ≠ "timestamp") (hi : k ≠ "id") :
    getField (errorResult url t i) k = none := by
  simp [errorResult, getField, Ne.symm he, Ne.symm hu, Ne.symm ht, Ne.symm hi]

theorem batchItem_congr (env env' : Env) (k d : Nat) (url : String)
    (hc : env'.clock = env.clock) (hr : env'.random = env.random)
    (ha : env'.analyzeUrl url = env.analyzeUrl url) :
    batchItem env' k d url = batchItem env k d url := by
  simp only [batchItem, timestampAt, batchIdAt, hc, hr, ha]

theorem demoEnv_clock_monotone : Monotone demoEnv.clock := by
  intro a b h
  show 1000 + a ≤ 1000 + b
  omega

/-! ## The claims -/

/-- C1 fails on the code: one `handleBatchScan` call with eleven URLs on the
empty rolling window leaves eleven entries in it, since the batch update
`[...results, ...prev]` does not cut the window back to ten. -/
theorem batch_window_exceeds_ten :
    emptyWorld.scanResults.length ≤ 10 ∧
    (performAll demoEnv emptyWorld
      [.submitBatch (List.replicate 11 "https://example.com/")]).scanResults.length = 11 := by
  decide

/-- C2: `handleBatchScan` puts in front of the rolling window a sequence
`results` with exactly one entry per input URL, in input order: entry `i` is
the stamped verdict of URL `i` when the analyzer returns one and the error
record of URL `i` when the analyzer raises. -/
theorem handleBatchScan_results_in_order (env : Env) (w : World) (urls : List String) :
    ∃ results : List JSObj,
      (handleBatchScan env w urls).1.scanResults = results ++ w.scanResults ∧
      results.length = urls.length ∧
      ∀ i : Nat, results[i]? = urls[i]?.map fun url =>
        match env.analyzeUrl url with
        | .ok v => withTimestamp v (timestampAt env (w.ticks + 2 * i))
            (batchIdAt env (w.ticks + 2 * i + 1) (w.draws + i))
        | .error _ => errorResult url (timestampAt env (w.ticks + 2 * i))
            (batchIdAt env (w.ticks + 2 * i + 1) (w.draws + i)) := by
  refine ⟨batchResults env w.ticks w.draws urls, ?_, batchResults_length env urls _ _, ?_⟩
  · rw [handleBatchScan_eq]
  · intro i
    rw [batchResults_eq_mapIdx, List.getElem?_mapIdx]
    rfl

/-- C3: on a URL that is empty or all white space `handleUrlScan` returns at
once: the state is untouched, so the analyzer is not called, no result is
produced and neither `addToHistory` nor `updateAnalytics` is called. -/
theorem handleUrlScan_blank_noop (env : Env) (br : Browser) (settings : Settings)
    (w : World) (url : String) (h : isBlank url = true) :
    handleUrlScan env br settings w url = (w, .normal) :=
  handleUrlScan_of_blank env br settings w url h

/-- Witness of C3 at the URL of three spaces. -/
theorem handleUrlScan_blank_noop_witness :
    isBlank "   " = true ∧
    handleUrlScan demoEnv grantedBrowser demoSettings emptyWorld "   " =
      (emptyWorld, .normal) :=
  ⟨by decide,
   handleUrlScan_blank_noop demoEnv grantedBrowser demoSettings emptyWorld "   " (by decide)⟩

/-- C4 fails on the code, which drops the failed URL: the analyzer raises on
the non-blank URL `"bad"`, and `handleUrlScan` ends normally with the rolling
window and the ledger log still empty, so no error-tagged result appears
(and, the notification permission not being granted, nothing is shown);
`handleBatchScan` on the same URL does put the record
`{ error: 'Failed to analyze', url: 'bad', timestamp, id }` in the window. -/
theorem handleUrlScan_failure_leaves_no_result :
    isBlank "bad" = false ∧
    demoEnv.analyzeUrl "bad" = .error (.str "Invalid URL") ∧
    (handleUrlScan demoEnv defaultBrowser demoSettings emptyWorld "bad").2 = .normal ∧
    (handleUrlScan demoEnv defaultBrowser demoSettings emptyWorld "bad").1.scanResults = [] ∧
    (handleUrlScan demoEnv defaultBrowser demoSettings emptyWorld "bad").1.historyCalls = [] ∧
    (handleUrlScan demoEnv defaultBrowser demoSettings emptyWorld "bad").1.shown = [] ∧
    (handleBatchScan demoEnv emptyWorld ["bad"]).1.scanResults =
      [[("error", .str "Failed to analyze"), ("url", .str "bad"),
        ("timestamp", .isoTime 1000), ("id", .str "10010.5")]] :=
  ⟨by decide, rfl, rfl, rfl, rfl, rfl, rfl⟩

/-- C5 fails on the code: in a batch of the one URL `"bad"`, on which the
analyzer raises, one error-tagged result is produced but `addToHistory` and
`updateAnalytics` are not called at all. -/
theorem handleBatchScan_error_not_fed :
    (handleBatchScan demoEnv emptyWorld ["bad"]).1.scanResults.length = 1 ∧
    (handleBatchScan demoEnv emptyWorld ["bad"]).1.historyCalls.length = 0 ∧
    (handleBatchScan demoEnv emptyWorld ["bad"]).1.analyticsCalls.length = 0 := by
  decide

/-- C5 as amended: `handleBatchScan` feeds to `addToHistory` exactly the
produced results of the URLs on which the analyzer returned a verdict, once
each and in input order, and feeds those verdicts to `updateAnalytics` in the
same order; error-tagged results reach neither, so both receive as many
calls as there are URLs on which the analyzer succeeded. -/
theorem handleBatchScan_feeds_verdicts (env : Env) (w : World) (urls : List String) :
    ∃ results : List JSObj,
      (handleBatchScan env w urls).1.scanResults = results ++ w.scanResults ∧
      results.length = urls.length ∧
      (handleBatchScan env w urls).1.historyCalls =
        w.historyCalls ++
          ((results.zip urls).filter fun p => (env.analyzeUrl p.2).isOk).map Prod.fst ∧
      (handleBatchScan env w urls).1.analyticsCalls =
        w.analyticsCalls ++ urls.filterMap (fun url => (env.analyzeUrl url).toOption) ∧
      (handleBatchScan env w urls).1.historyCalls.length =
        w.historyCalls.length + (urls.filter fun url => (env.analyzeUrl url).isOk).length ∧
      (handleBatchScan env w urls).1.analyticsCalls.length =
        w.analyticsCalls.length +
          (urls.filter fun url => (env.analyzeUrl url).isOk).length := by
  refine ⟨batchResults env w.ticks w.draws urls, ?_, batchResults_length env urls _ _,
    ?_, ?_, ?_, ?_⟩
  · rw [handleBatchScan_eq]
  · rw [handleBatchScan_eq, ← batchRecorded_eq_filter]
  · rw [handleBatchScan_eq]
    rfl
  · rw [handleBatchScan_eq]
    simp only [List.length_append, batchRecorded_length]
  · rw [handleBatchScan_eq]
    simp only [List.length_append, batchCounted_length]

/-- C6: when the analyzer returns the verdict `v` for a non-blank URL,
`handleUrlScan` makes the rolling window `r` followed by the first nine
entries of the previous window, where `r` carries the new `timestamp` and
`id` and agrees with `v` on every other property; `addToHistory` is called
once, with `r`, and `updateAnalytics` once, with `v`. -/
theorem handleUrlScan_success (env : Env) (br : Browser) (settings : Settings)
    (w : World) (url : String) (v : JSObj) (h : isBlank url = false)
    (hv : env.analyzeUrl url = .ok v) :
    ∃ r : JSObj,
      (handleUrlScan env br settings w url).1.scanResults = r :: w.scanResults.take 9 ∧
      (handleUrlScan env br settings w url).1.historyCalls = w.historyCalls ++ [r] ∧
      (handleUrlScan env br settings w url).1.analyticsCalls = w.analyticsCalls ++ [v] ∧
      getField r "timestamp" = some (.isoTime (env.clock w.ticks)) ∧
      getField r "id" = some (.str (toString (env.clock (w.ticks + 1)))) ∧
      ∀ k : String, k ≠ "timestamp" → k ≠ "id" → getField r k = getField v k := by
  have hf := handleUrlScan_ok_frame env br settings w url v h hv
  exact ⟨withTimestamp v (timestampAt env w.ticks) (singleIdAt env (w.ticks + 1)),
    hf.1, hf.2.1, hf.2.2.1, getField_withTimestamp_timestamp _ _ _,
    getField_withTimestamp_id _ _ _, fun k => getField_withTimestamp_other _ _ _ k⟩

/-- Witness of C6 at `"https://example.com/"`, with a `Notification`
constructor that raises. -/
theorem handleUrlScan_success_witness :
    isBlank "https://example.com/" = false ∧
    demoEnv.analyzeUrl "https://example.com/" =
      .ok [("url", .str "https://example.com/"), ("safe", .bool true),
           ("riskScore", .num 0), ("flags", .arr [])] ∧
    ∃ r : JSObj,
      (handleUrlScan demoEnv throwingBrowser demoSettings emptyWorld
        "https://example.com/").1.scanResults = r :: emptyWorld.scanResults.take 9 ∧
      (handleUrlScan demoEnv throwingBrowser demoSettings emptyWorld
        "https://example.com/").1.historyCalls = emptyWorld.historyCalls ++ [r] :=
  ⟨by decide, rfl,
   (handleUrlScan_success demoEnv throwingBrowser demoSettings emptyWorld
      "https://example.com/" _ (by decide) rfl).imp fun _ hr => ⟨hr.1, hr.2.1⟩⟩

/-- C7 fails on the code as stated: the analyzer of `mimicEnv` does not raise
on `"a"`, yet the result of `handleBatchScan` at position 0 is the record
`{ error: 'Failed to analyze', url: 'a', timestamp, id }`, because the verdict
already carries these `error` and `url` properties. -/
theorem verdict_mistaken_for_error_record :
    ["a"][0]? = some "a" ∧
    (∀ e, mimicEnv.analyzeUrl "a" ≠ .error e) ∧
    (handleBatchScan mimicEnv emptyWorld ["a"]).1.scanResults[0]? =
      some [("error", .str "Failed to analyze"), ("url", .str "a"),
            ("timestamp", .isoTime 1000), ("id", .str "10010.5")] :=
  ⟨rfl, (fun e h => by simp [mimicEnv, mimicAnalyze] at h), rfl⟩

/-- C7 as amended: in `handleBatchScan` the result `r` at position `i` always
carries the `timestamp` and `id` of iteration `i`; when the analyzer raises
on `urls[i]`, `r` has `error = 'Failed to analyze'`, `url = urls[i]` and no
further property; when the analyzer returns a verdict, `r` agrees with it on
every other property; provided that verdict does not itself carry
`error = 'Failed to analyze'`, `r` is error-tagged exactly when the analyzer
raises on `urls[i]`; and `r` is the same under any analyzer that treats
`urls[i]` alike, whatever it does (raise or not) on the other URLs. -/
theorem handleBatchScan_failure_isolated (env : Env) (w : World) (urls : List String)
    (i : Nat) (url : String) (hi : urls[i]? = some url) :
    ∃ r : JSObj,
      (handleBatchScan env w urls).1.scanResults[i]? = some r ∧
      getField r "timestamp" = some (.isoTime (env.clock (w.ticks + 2 * i))) ∧
      getField r "id" =
        some (.str (toString (env.clock (w.ticks + 2 * i + 1)) ++ env.random (w.draws + i))) ∧
      (∀ e, env.analyzeUrl url = .error e →
        getField r "error" = some (.str "Failed to analyze") ∧
        getField r "url" = some (.str url) ∧
        ∀ k : String, k ≠ "error" → k ≠ "url" → k ≠ "timestamp" → k ≠ "id" →
          getField r k = none) ∧
      (∀ v, env.analyzeUrl url = .ok v →
        ∀ k : String, k ≠ "timestamp" → k ≠ "id" → getField r k = getField v k) ∧
      ((∀ v, env.analyzeUrl url = .ok v →
          getField v "error" ≠ some (.str "Failed to analyze")) →
        (getField r "error" = some (.str "Failed to analyze") ↔
          ∃ e, env.analyzeUrl url = .error e)) ∧
      (∀ env' : Env, env'.clock = env.clock → env'.random = env.random →
        env'.analyzeUrl url = env.analyzeUrl url →
        (handleBatchScan env' w urls).1.scanResults[i]? = some r) := by
  refine ⟨batchItem env (w.ticks + 2 * i) (w.draws + i) url,
    handleBatchScan_getElem? env w urls i url hi, ?_, ?_, ?_, ?_, ?_, ?_⟩
  · cases hv : env.analyzeUrl url with
    | error e => simp [batchItem, hv, errorResult, getField, timestampAt]
    | ok v =>
      simp only [batchItem, hv]
      exact getField_withTimestamp_timestamp _ _ _
  · cases hv : env.analyzeUrl url with
    | error e => simp [batchItem, hv, errorResult, getField, batchIdAt]
    | ok v =>
      simp only [batchItem, hv]
      exact getField_withTimestamp_id _ _ _
  · intro e he
    simp only [batchItem, he]
    exact ⟨by simp [errorResult, getField], by simp [errorResult, getField],
      fun k => getField_errorResult_other url _ _ k⟩
  · intro v hv k ht hid
    simp only [batchItem, hv]
    exact getField_withTimestamp_other _ _ _ k ht hid
  · intro hverdict
    cases hv : env.analyzeUrl url with
    | error e =>
      simp only [batchItem, hv]
      exact ⟨fun _ => ⟨e, rfl⟩, fun _ => by simp [errorResult, getField]⟩
    | ok v =>
      simp only [batchItem, hv]
      rw [getField_withTimestamp_other v _ _ "error" (by decide) (by decide)]
      constructor
      · intro h
        exact absurd h (hverdict v hv)
      · rintro ⟨e, he⟩
        cases he
  · intro env' hc hr ha
    rw [handleBatchScan_getElem? env' w urls i url hi,
      batchItem_congr env env' _ _ url hc hr ha]

/-- Witness of the amended C7 at the batch `["a", "bad", "c"]`, position 1:
the analyzer raises on `"bad"`, whose result is error-tagged. -/
theorem handleBatchScan_failure_isolated_witness :
    ["a", "bad", "c"][1]? = some "bad" ∧
    demoEnv.analyzeUrl "bad" = .error (.str "Invalid URL") ∧
    ∃ r : JSObj,
      (handleBatchScan demoEnv emptyWorld ["a", "bad", "c"]).1.scanResults[1]? = some r ∧
      getField r "error" = some (.str "Failed to analyze") ∧
      getField r "url" = some (.str "bad") :=
  ⟨rfl, rfl,
   (handleBatchScan_failure_isolated demoEnv emptyWorld ["a", "bad", "c"] 1 "bad" rfl).imp
     fun _ hr =>
       ⟨hr.1, (hr.2.2.2.1 (.str "Invalid URL") rfl).1, (hr.2.2.2.1 (.str "Invalid URL") rfl).2.1⟩⟩

/-- C8: an exception raised by the analyzer never leaves a handler:
`handleUrlScan` never ends by raising a value that came from the analyzer,
and `handleBatchScan` always ends normally. -/
theorem analyzer_failure_contained (env : Env) (br : Browser) (settings : Settings)
    (w : World) (url : String) (urls : List String) :
    (∀ e, (handleUrlScan env br settings w url).2 ≠ .throw (.byAnalyzer e)) ∧
    (handleBatchScan env w urls).2 = .normal := by
  refine ⟨handleUrlScan_completion env br settings w url, ?_⟩
  rw [handleBatchScan_eq]

/-- C9 fails on the code: under a strictly increasing clock, one batch of two
URLs on the empty window leaves the entry created first in front of the entry
created after it, so the window is not newest-first. -/
theorem batch_window_oldest_first :
    Monotone demoEnv.clock ∧
    emptyWorld.scanResults = [] ∧
    (performAll demoEnv emptyWorld [.submitBatch ["a", "b"]]).scanResults.map createdAt =
      [1000, 1002] ∧
    ¬ NewestFirst (performAll demoEnv emptyWorld [.submitBatch ["a", "b"]]).scanResults := by
  refine ⟨demoEnv_clock_monotone, rfl, by decide, ?_⟩
  intro h
  have e : (performAll demoEnv emptyWorld [.submitBatch ["a", "b"]]).scanResults =
      [batchItem demoEnv 0 0 "a", batchItem demoEnv 2 1 "b"] := rfl
  rw [e] at h
  have hle := (List.pairwise_cons.1 h).1 _ (List.mem_singleton.2 rfl)
  rw [createdAt_batchItem, createdAt_batchItem] at hle
  exact absurd hle (by decide)

/-- C9 as amended: with a non-decreasing clock and an empty initial window,
each call leaves the window as the entries it produced (`fresh`) followed by
a leading part of the window it found (`kept`); every produced entry was
created no earlier than any entry of the window it found; the entries of one
batch stand in input order, oldest first (one per URL, in front of the whole
previous window); hence the window is newest-first throughout as long as no
batch holds more than one URL. -/
theorem window_newest_first_across_calls (env : Env) (hclock : Monotone env.clock)
    (w₀ : World) (h₀ : w₀.scanResults = []) (calls : List Call) (call : Call) :
    (∃ fresh kept : List JSObj,
      (performAll env w₀ (calls ++ [call])).scanResults = fresh ++ kept ∧
      kept <+: (performAll env w₀ calls).scanResults ∧
      (match call with
       | .submit _ _ _ => fresh.length ≤ 1
       | .submitBatch urls =>
         fresh.length = urls.length ∧ kept = (performAll env w₀ calls).scanResults) ∧
      (∀ a ∈ fresh, ∀ b ∈ (performAll env w₀ calls).scanResults,
        createdAt b ≤ createdAt a) ∧
      fresh.Pairwise fun a b => createdAt a ≤ createdAt b) ∧
    ((∀ c ∈ calls ++ [call], c.atMostOne) →
      NewestFirst (performAll env w₀ (calls ++ [call])).scanResults) := by
  refine ⟨?_, performAll_newestFirst env hclock w₀ h₀ (calls ++ [call])⟩
  obtain ⟨fresh, kept, h⟩ := perform_shape env hclock (performAll env w₀ calls) call
  refine ⟨fresh, kept, ?_, h.2.1, h.2.2.2.2.2,
    h.fresh_newer (performAll_windowInPast env hclock w₀ h₀ calls), h.2.2.2.1⟩
  rw [performAll_snoc]
  exact h.1

/-- Witness of the amended C9: a single scan followed by a batch of one URL. -/
theorem window_newest_first_across_calls_witness :
    Monotone demoEnv.clock ∧
    emptyWorld.scanResults = [] ∧
    NewestFirst (performAll demoEnv emptyWorld
      ([.submit grantedBrowser demoSettings "a"] ++ [.submitBatch ["b"]])).scanResults :=
  ⟨demoEnv_clock_monotone, rfl,
   (window_newest_first_across_calls demoEnv demoEnv_clock_monotone emptyWorld rfl
      [.submit grantedBrowser demoSettings "a"] (.submitBatch ["b"])).2
     (by
       intro c hc
       simp only [List.mem_append, List.mem_singleton] at hc
       rcases hc with rfl | rfl
       · exact trivial
       · exact Nat.le_refl 1)⟩

/-- C10: what `handleUrlScan` does to the rolling window, to the ledger
(`addToHistory` calls) and to the aggregator (`updateAnalytics` calls) does
not depend on the browser's `Notification` API: it is the same whether
`showNotification` raises, shows the notification or does nothing. -/
theorem notification_noninterference (env : Env) (br₁ br₂ : Browser) (settings : Settings)
    (w : World) (url : String) :
    (handleUrlScan env br₁ settings w url).1.scanResults =
      (handleUrlScan env br₂ settings w url).1.scanResults ∧
    (handleUrlScan env br₁ settings w url).1.historyCalls =
      (handleUrlScan env br₂ settings w url).1.historyCalls ∧
    (handleUrlScan env br₁ settings w url).1.analyticsCalls =
      (handleUrlScan env br₂ settings w url).1.analyticsCalls := by
  cases hb : isBlank url with
  | true =>
    rw [handleUrlScan_of_blank env br₁ settings w url hb,
      handleUrlScan_of_blank env br₂ settings w url hb]
    exact ⟨rfl, rfl, rfl⟩
  | false =>
    cases hv : env.analyzeUrl url with
    | error e =>
      have h₁ := handleUrlScan_error_frame env br₁ settings w url e hb hv
      have h₂ := handleUrlScan_error_frame env br₂ settings w url e hb hv
      exact ⟨h₁.1.trans h₂.1.symm, h₁.2.1.trans h₂.2.1.symm, h₁.2.2.1.trans h₂.2.2.1.symm⟩
    | ok v =>
      have h₁ := handleUrlScan_ok_frame env br₁ settings w url v hb hv
      have h₂ := handleUrlScan_ok_frame env br₂ settings w url v hb hv
      exact ⟨h₁.1.trans h₂.1.symm, h₁.2.1.trans h₂.2.1.symm, h₁.2.2.1.trans h₂.2.2.1.symm⟩

end SafeUrls
